import Mathlib

/-!
Verification of the K-Means / Gaussian-Mixture-Model trainer (ML_PA2.py).

The Python source is shallowly embedded:
* points are lists of reals, the dynamically shaped numpy arrays of the
  `k_means` class become `List`-valued state fields;
* the statically shaped arrays of the `gmm` class become `Matrix (Fin _) (Fin _) ℝ`;
* IEEE floats are modelled by real numbers; the `float('inf')` /
  `float('-inf')` sentinels used by the source are modelled by `EReal`;
* `np.random.choice` / `random.uniform` outcomes are passed in as explicit
  parameters (the source draws them from a global generator);
* numpy calls that can raise (`np.linalg.inv`) return `Except`, and the
  `try/except` block of `gmm.probability_density` is embedded by matching on
  that result.
-/

open scoped Classical

noncomputable section

/-- A data point: one row of the input array (a `D`-dimensional real vector). -/
abbrev Point : Type := List ℝ

/-- `k_means.calculate_distance`: `np.linalg.norm(centroid - cluster)`,
the Euclidean norm of the componentwise difference. -/
def calculate_distance (centroid cluster : Point) : ℝ :=
  Real.sqrt (List.zipWith (fun a b => (a - b) ^ 2) centroid cluster).sum

/-- State of a `k_means` object: the constructor arguments together with the
`centroid` and `clusters` dictionaries (keys `0 .. n_clusters-1` become list
positions). -/
structure KState where
  input_data : List Point
  n_clusters : ℕ
  max_limit : ℕ
  error_rate : ℝ
  centroid : List Point
  clusters : List (List Point)

/-- Loop of `k_means.find_closest_centroid`: iterate over the centroid keys in
order, keeping the last strict improvement.  `best = none` models the initial
`closest_dist = float("inf")`, against which every real distance compares
smaller. -/
def fccGo (p : Point) : List Point → ℕ → Option ℝ → ℕ → ℕ
  | [], _, _, cid => cid
  | c :: cs, k, best, cid =>
    let d := calculate_distance c p
    match best with
    | none => fccGo p cs (k + 1) (some d) k
    | some b => if d < b then fccGo p cs (k + 1) (some d) k else fccGo p cs (k + 1) (some b) cid

/-- `k_means.find_closest_centroid`. -/
def find_closest_centroid (centroids : List Point) (p : Point) : ℕ :=
  fccGo p centroids 0 none 0

/-- One `self.clusters[id_].append(data)` step of `k_means.e_step`. -/
def assignPoint (centroids : List Point) (cls : List (List Point)) (p : Point) :
    List (List Point) :=
  let id := find_closest_centroid centroids p
  cls.set id (cls.getD id [] ++ [p])

/-- `k_means.e_step`: append every input point to the cluster of its closest
centroid.  Note that the source never clears `self.clusters` first. -/
def e_step (st : KState) : KState :=
  { st with clusters := st.input_data.foldl (assignPoint st.centroid) st.clusters }

/-- Componentwise sum of a list of vectors (`np.sum` over axis 0). -/
def vecSum : List Point → Point
  | [] => []
  | [v] => v
  | v :: vs => List.zipWith (· + ·) v (vecSum vs)

/-- `np.mean(list_of_points, axis=0)`: the componentwise mean. -/
def vecMean (l : List Point) : Point :=
  (vecSum l).map (fun s => s / (l.length : ℝ))

/-- `k_means.m_step`: each centroid becomes the mean of its cluster. -/
def m_step (st : KState) : KState :=
  { st with centroid := st.clusters.map vecMean }

/-- `np.mean` of a flat list of reals. -/
def listMean (l : List ℝ) : ℝ := l.sum / (l.length : ℝ)

/-- The `dif_list` of `k_means.execute`, flattened the way `np.mean` flattens
the list of `abs(new_centroid[each] - old_centroid[each])` vectors. -/
def difList (newC oldC : List Point) : List ℝ :=
  (List.zipWith (fun nv ov => List.zipWith (fun a b => |a - b|) nv ov) newC oldC).flatten

/-- `k_means.gen_random_centroid` with the rows drawn by `np.random.choice`
supplied explicitly in `choice`. -/
def gen_random_centroid (st : KState) (choice : List ℕ) : KState :=
  { st with
    centroid := (List.range st.n_clusters).map (fun i => st.input_data.getD (choice.getD i 0) [])
    clusters := List.replicate st.n_clusters [] }

/-- The loop-local variables of `k_means.execute`, plus an observer `trace`
recording the state after each executed loop body. -/
structure KRun where
  st : KState
  current_error : EReal
  current_iteration : ℕ
  trace : List KState

/-- One body of the `while` loop of `k_means.execute`. -/
def kmeansStep (r : KRun) : KRun :=
  let st1 := e_step r.st
  let old_centroid := st1.centroid
  let st2 := m_step st1
  let err := listMean (difList st2.centroid old_centroid)
  { st := st2
    current_error := (err : EReal)
    current_iteration := r.current_iteration + 1
    trace := r.trace ++ [st2] }

/-- The `while current_error > self.error_rate and current_iteration < self.max_limit`
loop of `k_means.execute`. -/
def kmeansLoop (error_rate : ℝ) (max_limit : ℕ) (r : KRun) : KRun :=
  if h : (error_rate : EReal) < r.current_error ∧ r.current_iteration < max_limit then
    kmeansLoop error_rate max_limit (kmeansStep r)
  else r
termination_by max_limit - r.current_iteration
decreasing_by
  simp only [kmeansStep]
  omega

/-- `k_means.execute`: random initialization (modelled by `choice`), then the
convergence loop starting from `current_error = inf`, `current_iteration = 1`. -/
def kmeansExecute (st : KState) (choice : List ℕ) : KRun :=
  kmeansLoop st.error_rate st.max_limit
    { st := gen_random_centroid st choice
      current_error := (⊤ : EReal)
      current_iteration := 1
      trace := [] }

/-- `k_means.get_radii`: running `max` over the member points starting from
`float('-inf')` (the bottom element of `EReal`). -/
def get_radii (st : KState) (cluster_id : ℕ) : EReal :=
  (st.clusters.getD cluster_id []).foldl
    (fun radii point =>
      max radii ((calculate_distance (st.centroid.getD cluster_id []) point : ℝ) : EReal))
    (⊥ : EReal)

/-- `i` is the smallest index of a centroid at minimal distance from `p`. -/
def IsLeastArgmin (centroids : List Point) (p : Point) (i : ℕ) : Prop :=
  i < centroids.length ∧
  (∀ j, j < centroids.length →
    calculate_distance (centroids.getD i []) p ≤ calculate_distance (centroids.getD j []) p) ∧
  (∀ j, j < i →
    calculate_distance (centroids.getD i []) p < calculate_distance (centroids.getD j []) p)

/-- The `k_means` state used as witness for the empty-cluster radius query. -/
def stC10 : KState :=
  { input_data := [[0]]
    n_clusters := 1
    max_limit := 10
    error_rate := 1 / 100
    centroid := [[0]]
    clusters := [[]] }

/-- The concrete `k_means` configuration of the C4 counterexample:
one 1-dimensional point, one cluster, `max_limit = 3` and an error threshold
that is never met. -/
def stK4 : KState :=
  { input_data := [[0]]
    n_clusters := 1
    max_limit := 3
    error_rate := -1
    centroid := []
    clusters := [] }

/-- The concrete `k_means` configuration of the C2 run: three 1-dimensional
points, two clusters, thresholds as in `run_k_means`, at most two loop
iterations. -/
def stK2 : KState :=
  { input_data := [[0], [2], [10]]
    n_clusters := 2
    max_limit := 3
    error_rate := 1 / 100
    centroid := []
    clusters := [] }

/-- Python exception values that the `gmm` class can produce.  The Boolean on
`LinAlgError` records whether the exception was raised from inside the
`except:` handler of `gmm.probability_density` (by the `print(np.linalg.inv(...))`
call) rather than propagated directly. -/
inductive PyErr where
  | LinAlgError (raisedInExceptHandler : Bool)
  | UnboundLocal
  | ValueError

namespace gmm

/-- State of a `gmm` object with `N` data points of dimension `D` and `K`
mixture components (`n_clusters = K`). -/
@[ext]
structure GState (N D K : ℕ) where
  input_data : Matrix (Fin N) (Fin D) ℝ
  ric : Matrix (Fin N) (Fin K) ℝ
  mu : Matrix (Fin K) (Fin D) ℝ
  cov : Fin K → Matrix (Fin D) (Fin D) ℝ
  pi : Fin K → ℝ
  likelihood : ℝ
  max_iteration : ℕ
  threshold : ℝ

/-- `np.linalg.inv`: raises `LinAlgError` on a singular matrix, otherwise
returns the inverse. -/
def np_linalg_inv {D : ℕ} (M : Matrix (Fin D) (Fin D) ℝ) :
    Except Unit (Matrix (Fin D) (Fin D) ℝ) :=
  if M.det = 0 then .error () else .ok M⁻¹

/-- The value computed inside the `try:` block of `gmm.probability_density`
(for an invertible covariance), exactly as the source writes it:
`1 / pow(2*pi, -n_clusters/2) * pow(abs(det), -1/2) * exp(-1/2 * (x-mu)T Sinv (x-mu))`. -/
def densVal {N D K : ℕ} (st : GState N D K) (i : Fin N) (k : Fin K) : ℝ :=
  1 / (2 * Real.pi) ^ (-(K : ℝ) / 2) * |(st.cov k).det| ^ (-(1 : ℝ) / 2) *
    Real.exp (-(1 : ℝ) / 2 *
      Matrix.dotProduct
        (Matrix.vecMul (fun j => st.input_data i j - st.mu k j) (st.cov k)⁻¹)
        (fun j => st.input_data i j - st.mu k j))

/-- `gmm.probability_density`.  The whole computation is wrapped in a bare
`try/except`; on a singular covariance the inversion raises, the handler
evaluates `print(np.linalg.inv(self.cov[gaussian_id]))` whose argument raises
`LinAlgError` again (now from inside the handler), and if that print had
succeeded the `return probability` line would hit the unbound local
`probability`. -/
def probability_density {N D K : ℕ} (st : GState N D K) (i : Fin N) (k : Fin K) :
    Except PyErr ℝ :=
  match np_linalg_inv (st.cov k) with
  | .ok Sinv =>
      .ok (1 / (2 * Real.pi) ^ (-(K : ℝ) / 2) * |(st.cov k).det| ^ (-(1 : ℝ) / 2) *
        Real.exp (-(1 : ℝ) / 2 *
          Matrix.dotProduct (Matrix.vecMul (fun j => st.input_data i j - st.mu k j) Sinv)
            (fun j => st.input_data i j - st.mu k j)))
  | .error _ =>
      match np_linalg_inv (st.cov k) with
      | .error _ => .error (PyErr.LinAlgError true)
      | .ok _ => .error PyErr.UnboundLocal

/-- `gmm.calculate_mu`: `np.average(input_data, axis=0, weights=ric[:, k])`. -/
def calculate_mu {N D K : ℕ} (st : GState N D K) (k : Fin K) : Fin D → ℝ :=
  fun j => (∑ i, st.ric i k * st.input_data i j) / (∑ i, st.ric i k)

/-- `gmm.calculate_pi`: column mean of the responsibility matrix. -/
def calculate_pi {N D K : ℕ} (st : GState N D K) (k : Fin K) : ℝ :=
  (∑ i, st.ric i k) / (N : ℝ)

/-- `gmm.calculate_sigma`: responsibility-weighted sum of outer products of the
centered points, divided entrywise by the responsibility sum.  Reads the `mu`
row that `calculate_mu` has just written. -/
def calculate_sigma {N D K : ℕ} (st : GState N D K) (k : Fin K) :
    Matrix (Fin D) (Fin D) ℝ :=
  Matrix.of fun a b =>
    (∑ i, st.ric i k * ((st.input_data i a - st.mu k a) * (st.input_data i b - st.mu k b))) /
      (∑ i, st.ric i k)

/-- `gmm.e_step` (the source labels parameter estimation "e_step"): for each
component, update `mu`, then `pi`, then `cov`; `calculate_sigma` for component
`k` sees the freshly written `mu` row `k`, and all three read the unchanged
`ric`. -/
def e_step {N D K : ℕ} (st : GState N D K) : GState N D K :=
  let mu' : Matrix (Fin K) (Fin D) ℝ := Matrix.of fun k j => calculate_mu st k j
  { st with
    mu := mu'
    pi := fun k => calculate_pi st k
    cov := fun k => calculate_sigma { st with mu := mu' } k }

/-- `gmm.calculate_ric`: update column `k` of the responsibility matrix.  For
`N ≥ 1` points this evaluates `probability_density` for every component, so a
singular covariance surfaces as the handler-raised `LinAlgError`; the
denominator `summ` is used with no zero check. -/
def calculate_ric {N D K : ℕ} (st : GState N D K) (k : Fin K) :
    Except PyErr (GState N D K) :=
  if N = 0 then .ok st
  else if _h : ∀ k' : Fin K, (st.cov k').det ≠ 0 then
    .ok { st with
      ric := Matrix.of fun i k' =>
        if k' = k then st.pi k * densVal st i k / (∑ j, st.pi j * densVal st i j)
        else st.ric i k' }
  else .error (PyErr.LinAlgError true)

/-- `gmm.m_step`: run `calculate_ric` for each component index in order. -/
def m_step {N D K : ℕ} (st : GState N D K) : Except PyErr (GState N D K) :=
  (List.finRange K).foldlM (fun s k => calculate_ric s k) st

/-- `gmm.get_likelihood`: `Σ_i log(Σ_k pi_k * density(i, k))`. -/
def get_likelihood {N D K : ℕ} (st : GState N D K) : Except PyErr ℝ :=
  if N = 0 then .ok 0
  else if _h : ∀ k : Fin K, (st.cov k).det ≠ 0 then
    .ok (∑ i, Real.log (∑ k, st.pi k * densVal st i k))
  else .error (PyErr.LinAlgError true)

/-- The loop-local variables of `gmm.execute` plus an observer `trace` of the
states after each executed loop body. -/
structure GRun (N D K : ℕ) where
  st : GState N D K
  delta : EReal
  iterations : ℕ
  trace : List (GState N D K)

/-- The `while delta > self.threshold and iterations < self.max_iteration` loop
of `gmm.execute`: `delta = lld - self.likelihood` is the signed difference
against the stored likelihood (initially the constructor value 0). -/
def gmmLoop {N D K : ℕ} (threshold : ℝ) (max_iteration : ℕ) (r : GRun N D K) :
    Except PyErr (GRun N D K) :=
  if h : (threshold : EReal) < r.delta ∧ r.iterations < max_iteration then
    match m_step (e_step r.st) with
    | .error e => .error e
    | .ok st2 =>
      match get_likelihood st2 with
      | .error e => .error e
      | .ok lld =>
          gmmLoop threshold max_iteration
            { st := { st2 with likelihood := lld }
              delta := ((lld - st2.likelihood : ℝ) : EReal)
              iterations := r.iterations + 1
              trace := r.trace ++ [{ st2 with likelihood := lld }] }
  else .ok r
termination_by max_iteration - r.iterations
decreasing_by
  have h2 := h.2
  omega

/-- `gmm.execute`: the convergence loop starting from `delta = float('inf')`
and `iterations = 0`, with `self.likelihood = 0` from the constructor. -/
def execute {N D K : ℕ} (st : GState N D K) : Except PyErr (GRun N D K) :=
  gmmLoop st.threshold st.max_iteration
    { st := st, delta := (⊤ : EReal), iterations := 0, trace := [] }

/-- Inner loop of `gmm.predict` for point index `i`: running argmax of
`pi[c] * probability_density(i, c)` with `max_density` starting at 0 and
strict improvement, so ties keep the lowest index. -/
def predictPoint {N D K : ℕ} (st : GState N D K) (i : Fin N) : ℕ :=
  ((List.finRange K).foldl
    (fun acc c =>
      let density := st.pi c * densVal st i c
      if acc.2 < density then ((c : ℕ), density) else acc)
    ((0 : ℕ), (0 : ℝ))).1

/-- `gmm.predict`: `probability_density(i, c)` evaluates the density at
`self.input_data[i]`, not at `X[i]`; the argument `X` is used only through
`X.shape[0]`.  When `X` is longer than the training data, the point loop
reaches an index past `input_data`, the `IndexError` is caught by the bare
except of `probability_density`, the `print` succeeds (covariance invertible)
and the function dies on its unbound local. -/
def predict {N D K : ℕ} (st : GState N D K) (X : List (List ℝ)) :
    Except PyErr (List ℕ) :=
  if X.length = 0 then .ok []
  else if K = 0 then .ok (List.replicate X.length 0)
  else if _h : ∀ k : Fin K, (st.cov k).det ≠ 0 then
    if X.length ≤ N then
      .ok ((List.range X.length).map fun i =>
        if hi : i < N then predictPoint st ⟨i, hi⟩ else 0)
    else .error PyErr.UnboundLocal
  else .error (PyErr.LinAlgError true)

/-- The responsibility-row initializer of `gmm.__init__` at the list level:
`np.full((N, K), 1/K)` followed by assigning the length-3 array `[x, y, z]`
(with `z = 1 - (x + y)`) to every row, which is a numpy shape error unless
`K = 3`.  `draws` supplies the `random.uniform` outcomes `(x, y)` per row. -/
def init_ric (N K : ℕ) (draws : ℕ → ℝ × ℝ) : Except PyErr (List (List ℝ)) :=
  if N = 0 then .ok []
  else if K = 3 then
    .ok ((List.range N).map fun i =>
      [(draws i).1, (draws i).2, 1 - ((draws i).1 + (draws i).2)])
  else .error PyErr.ValueError

end gmm

/-- The multivariate normal probability density as the specification states it:
`(2π)^(-D/2) · |Σ|^(-1/2) · exp(-½ (x-μ)ᵀ Σ⁻¹ (x-μ))`, with `D` the feature
dimension. -/
def normalPdf (D : ℕ) (x mu : Fin D → ℝ) (S : Matrix (Fin D) (Fin D) ℝ) : ℝ :=
  (2 * Real.pi) ^ (-(D : ℝ) / 2) * |S.det| ^ (-(1 : ℝ) / 2) *
    Real.exp (-(1 : ℝ) / 2 *
      Matrix.dotProduct (Matrix.vecMul (fun j => x j - mu j) S⁻¹) (fun j => x j - mu j))

/-- A `gmm` state with one 1-dimensional point `x = 0`, `K = 3` components,
mean 0 and identity covariance for every component. -/
def stC1 : gmm.GState 1 1 3 :=
  { input_data := Matrix.of fun _ _ => 0
    ric := Matrix.of fun _ _ => 1 / 3
    mu := Matrix.of fun _ _ => 0
    cov := fun _ => 1
    pi := fun _ => 1 / 3
    likelihood := 0
    max_iteration := 100
    threshold := 1 / 2 }

/-- Like `stC1` but with every mixture weight equal to 0, which makes the
responsibility denominator vanish. -/
def stC6 : gmm.GState 1 1 3 :=
  { input_data := Matrix.of fun _ _ => 0
    ric := Matrix.of fun _ _ => 1 / 3
    mu := Matrix.of fun _ _ => 0
    cov := fun _ => 1
    pi := fun _ => 0
    likelihood := 0
    max_iteration := 100
    threshold := 1 / 2 }

/-- Like `stC1` but with the zero matrix (singular) as every covariance. -/
def stC7 : gmm.GState 1 1 3 :=
  { input_data := Matrix.of fun _ _ => 0
    ric := Matrix.of fun _ _ => 1 / 3
    mu := Matrix.of fun _ _ => 0
    cov := fun _ => 0
    pi := fun _ => 1 / 3
    likelihood := 0
    max_iteration := 100
    threshold := 1 / 2 }

/-- The concrete `gmm` configuration of the C5 run: two 1-dimensional points
`±100`, `K = 3`, every initial responsibility row `(1/2, 1/4, 1/4)` (the
legal draw `x = 1/2`, `y = 1/4`), `threshold = 0.5`, `max_iteration = 100`,
and the zero-initialized `mu`/`cov`/`pi`/`likelihood` of `gmm.__init__`. -/
def stC5 : gmm.GState 2 1 3 :=
  { input_data := !![(-100 : ℝ); 100]
    ric := Matrix.of ![![(1 : ℝ) / 2, 1 / 4, 1 / 4], ![(1 : ℝ) / 2, 1 / 4, 1 / 4]]
    mu := 0
    cov := fun _ => 0
    pi := fun _ => 0
    likelihood := 0
    max_iteration := 100
    threshold := 1 / 2 }

/-- The state of the C5 run after the first `gmm.e_step`: all component means
0, all variances `10000`, weights `(1/2, 1/4, 1/4)`. -/
def stC5e : gmm.GState 2 1 3 :=
  { input_data := !![(-100 : ℝ); 100]
    ric := Matrix.of ![![(1 : ℝ) / 2, 1 / 4, 1 / 4], ![(1 : ℝ) / 2, 1 / 4, 1 / 4]]
    mu := 0
    cov := fun _ => !![(10000 : ℝ)]
    pi := ![(1 : ℝ) / 2, 1 / 4, 1 / 4]
    likelihood := 0
    max_iteration := 100
    threshold := 1 / 2 }

/-- The common value of every density `gmm.densVal stC5e i k`. -/
def cValC5 : ℝ := (2 * Real.pi) ^ ((3 : ℝ) / 2) * (100 : ℝ)⁻¹ * Real.exp (-(1 : ℝ) / 2)

lemma fccGo_spec (p : Point) (g : ℕ → ℝ) :
    ∀ (cs : List Point) (k cid : ℕ) (b : ℝ),
      (∀ m, m < cs.length → g (k + m) = calculate_distance (cs.getD m []) p) →
      b = g cid → cid < k →
      (∀ j, j < k → b ≤ g j) → (∀ j, j < cid → b < g j) →
      fccGo p cs k (some b) cid < k + cs.length ∧
      (∀ j, j < k + cs.length → g (fccGo p cs k (some b) cid) ≤ g j) ∧
      (∀ j, j < fccGo p cs k (some b) cid → g (fccGo p cs k (some b) cid) < g j) := by
  intro cs
  induction cs with
  | nil =>
    intro k cid b _ hb hcid hmin hlt
    simp only [fccGo, List.length_nil, Nat.add_zero]
    refine ⟨hcid, ?_, ?_⟩
    · intro j hj; exact hb ▸ hmin j hj
    · intro j hj; exact hb ▸ hlt j hj
  | cons c cs ih =>
    intro k cid b hmatch hb hcid hmin hlt
    have hd : g k = calculate_distance c p := by
      have := hmatch 0 (by simp)
      simpa using this
    have hmatch' : ∀ m, m < cs.length → g (k + 1 + m) = calculate_distance (cs.getD m []) p := by
      intro m hm
      have := hmatch (m + 1) (by simpa using Nat.succ_lt_succ hm)
      simpa [Nat.add_assoc, Nat.add_comm 1 m] using this
    by_cases hcmp : calculate_distance c p < b
    · have hres : fccGo p (c :: cs) k (some b) cid =
          fccGo p cs (k + 1) (some (calculate_distance c p)) k := by
        simp [fccGo, hcmp]
      rw [hres]
      have hspec := ih (k + 1) k (calculate_distance c p) hmatch' hd.symm (Nat.lt_succ_self k)
        (by
          intro j hj
          rcases Nat.lt_succ_iff_lt_or_eq.mp hj with hj' | hj'
          · exact le_of_lt (lt_of_lt_of_le hcmp (hmin j hj'))
          · subst hj'; exact le_of_eq hd.symm)
        (by
          intro j hj
          exact lt_of_lt_of_le hcmp (hmin j hj))
      refine ⟨?_, ?_, hspec.2.2⟩
      · have := hspec.1; simpa [Nat.add_assoc, Nat.add_comm 1 cs.length] using this
      · intro j hj
        exact hspec.2.1 j (by simpa [Nat.add_assoc, Nat.add_comm 1 cs.length] using hj)
    · have hres : fccGo p (c :: cs) k (some b) cid =
          fccGo p cs (k + 1) (some b) cid := by
        simp [fccGo, hcmp]
      rw [hres]
      have hspec := ih (k + 1) cid b hmatch' hb (Nat.lt_succ_of_lt hcid)
        (by
          intro j hj
          rcases Nat.lt_succ_iff_lt_or_eq.mp hj with hj' | hj'
          · exact hmin j hj'
          · subst hj'; rw [hd]; exact le_of_not_lt hcmp)
        hlt
      refine ⟨?_, ?_, hspec.2.2⟩
      · have := hspec.1; simpa [Nat.add_assoc, Nat.add_comm 1 cs.length] using this
      · intro j hj
        exact hspec.2.1 j (by simpa [Nat.add_assoc, Nat.add_comm 1 cs.length] using hj)

/-- C3: for every point and every non-empty list of centroids (keys `0..K-1`),
`find_closest_centroid` returns the smallest centroid index achieving the
minimum Euclidean distance to the point; on ties the lowest index wins. -/
theorem c3_find_closest_centroid_least_argmin (centroids : List Point) (p : Point)
    (h : centroids ≠ []) : IsLeastArgmin centroids p (find_closest_centroid centroids p) := by
  rcases centroids with _ | ⟨c, cs⟩
  · exact absurd rfl h
  have hres : find_closest_centroid (c :: cs) p =
      fccGo p cs 1 (some (calculate_distance c p)) 0 := by
    simp [find_closest_centroid, fccGo]
  have hmatch : ∀ m, m < cs.length →
      (fun j => calculate_distance ((c :: cs).getD j []) p) (1 + m) =
        calculate_distance (cs.getD m []) p := by
    intro m hm
    simp [Nat.add_comm 1 m]
  have hspec := fccGo_spec p (fun j => calculate_distance ((c :: cs).getD j []) p)
    cs 1 0 (calculate_distance c p) hmatch (by simp) Nat.one_pos
    (by intro j hj; interval_cases j; simp)
    (by intro j hj; exact absurd hj (Nat.not_lt_zero j))
  rw [hres]
  refine ⟨?_, ?_, ?_⟩
  · have := hspec.1; simpa [Nat.add_comm 1 cs.length] using this
  · intro j hj
    exact hspec.2.1 j (by simpa [Nat.add_comm 1 cs.length] using hj)
  · exact hspec.2.2

theorem c3_witness :
    ([[(0 : ℝ)], [(1 : ℝ)]] : List Point) ≠ [] ∧
    IsLeastArgmin [[(0 : ℝ)], [(1 : ℝ)]] [(0 : ℝ)]
      (find_closest_centroid [[(0 : ℝ)], [(1 : ℝ)]] [(0 : ℝ)]) :=
  ⟨by simp, c3_find_closest_centroid_least_argmin _ _ (by simp)⟩

/-- C10: `get_radii` on a cluster with no member points does not fail and
returns `float('-inf')` (modelled by `⊥ : EReal`), the identity of the running
max over the empty member list. -/
theorem c10_get_radii_empty_bot (st : KState) (cluster_id : ℕ)
    (h : st.clusters.getD cluster_id [] = []) : get_radii st cluster_id = ⊥ := by
  unfold get_radii
  rw [h]
  rfl

theorem c10_witness : stC10.clusters.getD 0 [] = [] ∧ get_radii stC10 0 = ⊥ :=
  ⟨rfl, c10_get_radii_empty_bot stC10 0 rfl⟩

lemma zipWith_abs_nonneg : ∀ (l1 l2 : List ℝ), ∀ x ∈ List.zipWith (fun a b => |a - b|) l1 l2, 0 ≤ x := by
  intro l1
  induction l1 with
  | nil => intro l2 x hx; simp at hx
  | cons a l1 ih =>
    intro l2 x hx
    cases l2 with
    | nil => simp at hx
    | cons b l2 =>
      rcases List.mem_cons.mp hx with h | h
      · exact h ▸ abs_nonneg _
      · exact ih l2 x h

lemma difList_nonneg : ∀ (nc oc : List Point), ∀ x ∈ difList nc oc, 0 ≤ x := by
  intro nc
  induction nc with
  | nil => intro oc x hx; simp [difList] at hx
  | cons v nc ih =>
    intro oc x hx
    cases oc with
    | nil => simp [difList] at hx
    | cons w oc =>
      simp only [difList, List.zipWith_cons_cons, List.flatten_cons, List.mem_append] at hx
      rcases hx with h | h
      · exact zipWith_abs_nonneg v w x h
      · exact ih oc x (by simpa [difList] using h)

lemma listMean_nonneg {l : List ℝ} (h : ∀ x ∈ l, 0 ≤ x) : 0 ≤ listMean l :=
  div_nonneg (List.sum_nonneg h) (Nat.cast_nonneg _)

lemma kmeansStep_error_nonneg (r : KRun) :
    ∃ e : ℝ, (kmeansStep r).current_error = (e : EReal) ∧ 0 ≤ e :=
  ⟨_, rfl, listMean_nonneg (difList_nonneg _ _)⟩

lemma kmeansLoop_eq (rate : ℝ) (max : ℕ) (r : KRun) :
    kmeansLoop rate max r =
      if (rate : EReal) < r.current_error ∧ r.current_iteration < max then
        kmeansLoop rate max (kmeansStep r)
      else r := by
  rw [kmeansLoop]
  exact dite_eq_ite

lemma kmeansLoop_exit (rate : ℝ) (max : ℕ) :
    ∀ fuel r, max - r.current_iteration ≤ fuel →
      ¬((rate : EReal) < (kmeansLoop rate max r).current_error ∧
        (kmeansLoop rate max r).current_iteration < max) := by
  intro fuel
  induction fuel with
  | zero =>
    intro r hr
    rw [kmeansLoop_eq, if_neg (by intro hc; omega)]
    intro hc
    omega
  | succ n ih =>
    intro r hr
    rw [kmeansLoop_eq]
    by_cases hc : (rate : EReal) < r.current_error ∧ r.current_iteration < max
    · rw [if_pos hc]
      exact ih (kmeansStep r) (by simp only [kmeansStep]; omega)
    · rw [if_neg hc]
      exact hc

lemma kmeansLoop_count (rate : ℝ) (max : ℕ) (hrate : rate < 0) :
    ∀ fuel r, max - r.current_iteration ≤ fuel →
      (rate : EReal) < r.current_error →
      (kmeansLoop rate max r).trace.length = r.trace.length + (max - r.current_iteration) := by
  intro fuel
  induction fuel with
  | zero =>
    intro r hr herr
    rw [kmeansLoop_eq, if_neg (by intro hc; omega)]
    omega
  | succ n ih =>
    intro r hr herr
    by_cases hiter : r.current_iteration < max
    · rw [kmeansLoop_eq, if_pos ⟨herr, hiter⟩]
      obtain ⟨e, he, he0⟩ := kmeansStep_error_nonneg r
      have herr' : (rate : EReal) < (kmeansStep r).current_error := by
        rw [he]
        exact_mod_cast lt_of_lt_of_le hrate he0
      have := ih (kmeansStep r) (by simp only [kmeansStep]; omega) herr'
      rw [this]
      simp only [kmeansStep, List.length_append, List.length_cons, List.length_nil]
      omega
    · rw [kmeansLoop_eq, if_neg (by intro hc; exact hiter hc.2)]
      omega

/-- C4 (amended): the fit loop of `k_means.execute` terminates as soon as the
mean absolute per-component centroid displacement is at or below `error_rate`
or the counter `current_iteration` (which starts at 1) reaches `max_limit`;
hence when the error threshold is never met, exactly `max_limit - 1` loop
iterations are performed, not `max_limit`. -/
theorem c4_amended (st : KState) (choice : List ℕ) (h : st.error_rate < 0) :
    ((kmeansExecute st choice).current_error ≤ (st.error_rate : EReal) ∨
      st.max_limit ≤ (kmeansExecute st choice).current_iteration) ∧
    (kmeansExecute st choice).trace.length = st.max_limit - 1 := by
  constructor
  · have hex := kmeansLoop_exit st.error_rate st.max_limit st.max_limit
      { st := gen_random_centroid st choice
        current_error := (⊤ : EReal)
        current_iteration := 1
        trace := [] } (by omega)
    rcases not_and_or.mp hex with h1 | h2
    · exact Or.inl (not_lt.mp h1)
    · exact Or.inr (not_lt.mp h2)
  · have hcount := kmeansLoop_count st.error_rate st.max_limit h st.max_limit
      { st := gen_random_centroid st choice
        current_error := (⊤ : EReal)
        current_iteration := 1
        trace := [] } (by omega) (EReal.coe_lt_top st.error_rate)
    simpa [kmeansExecute] using hcount

/-- C4 counterexample: with `max_limit = 3` and an error threshold that no
iteration can meet, `k_means.execute` performs 2 loop iterations, not
`max_limit = 3` as the claim states. -/
theorem c4_counterexample :
    (kmeansExecute stK4 [0]).trace.length = 2 ∧ stK4.max_limit = 3 ∧
      (kmeansExecute stK4 [0]).trace.length ≠ stK4.max_limit := by
  have hcount := kmeansLoop_count (-1) 3 (by norm_num) 3
    { st := gen_random_centroid stK4 [0]
      current_error := (⊤ : EReal)
      current_iteration := 1
      trace := [] } (by omega) (EReal.coe_lt_top (-1))
  have h2 : (kmeansExecute stK4 [0]).trace.length = 2 := by
    simpa [kmeansExecute, stK4] using hcount
  exact ⟨h2, rfl, by rw [h2]; intro hc; simp [stK4] at hc⟩

theorem c4_witness :
    stK4.error_rate < 0 ∧
    (((kmeansExecute stK4 [1]).current_error ≤ (stK4.error_rate : EReal) ∨
        stK4.max_limit ≤ (kmeansExecute stK4 [1]).current_iteration) ∧
      (kmeansExecute stK4 [1]).trace.length = stK4.max_limit - 1) :=
  ⟨by norm_num [stK4], c4_amended stK4 [1] (by norm_num [stK4])⟩

lemma calc_dist_single (a b c : ℝ) (h : (a - b) ^ 2 = c ^ 2) (hc : 0 ≤ c) :
    calculate_distance [a] [b] = c := by
  unfold calculate_distance
  simp only [List.zipWith_cons_cons, List.zipWith_nil_right, List.sum_cons, List.sum_nil,
    add_zero]
  rw [h]
  exact Real.sqrt_sq hc

/-- C2: the cluster dictionaries are never cleared between iterations.  On the
concrete run `stK2` (three points, two clusters, two executed loop
iterations) the final state stores 6 member entries for 3 input points, so
after the second E-step the memberships are not a partition of the point
set. -/
theorem c2_clusters_accumulate :
    ((kmeansExecute stK2 [0, 1]).st.clusters.map List.length).sum = 6 ∧
      stK2.input_data.length = 3 := by
  refine ⟨?_, rfl⟩
  have d_00 : calculate_distance [(0 : ℝ)] [0] = 0 := calc_dist_single _ _ _ (by norm_num) le_rfl
  have d_20 : calculate_distance [(2 : ℝ)] [0] = 2 :=
    calc_dist_single _ _ _ (by norm_num) (by norm_num)
  have d_02 : calculate_distance [(0 : ℝ)] [2] = 2 :=
    calc_dist_single _ _ _ (by norm_num) (by norm_num)
  have d_22 : calculate_distance [(2 : ℝ)] [2] = 0 := calc_dist_single _ _ _ (by norm_num) le_rfl
  have d_010 : calculate_distance [(0 : ℝ)] [10] = 10 :=
    calc_dist_single _ _ _ (by norm_num) (by norm_num)
  have d_210 : calculate_distance [(2 : ℝ)] [10] = 8 :=
    calc_dist_single _ _ _ (by norm_num) (by norm_num)
  have d_60 : calculate_distance [(6 : ℝ)] [0] = 6 :=
    calc_dist_single _ _ _ (by norm_num) (by norm_num)
  have d_62 : calculate_distance [(6 : ℝ)] [2] = 4 :=
    calc_dist_single _ _ _ (by norm_num) (by norm_num)
  have d_610 : calculate_distance [(6 : ℝ)] [10] = 4 :=
    calc_dist_single _ _ _ (by norm_num) (by norm_num)
  have f1a : find_closest_centroid [[(0 : ℝ)], [2]] [0] = 0 := by
    norm_num [find_closest_centroid, fccGo, d_00, d_20]
  have f1b : find_closest_centroid [[(0 : ℝ)], [2]] [2] = 1 := by
    norm_num [find_closest_centroid, fccGo, d_02, d_22]
  have f1c : find_closest_centroid [[(0 : ℝ)], [2]] [10] = 1 := by
    norm_num [find_closest_centroid, fccGo, d_010, d_210]
  have f2a : find_closest_centroid [[(0 : ℝ)], [6]] [0] = 0 := by
    norm_num [find_closest_centroid, fccGo, d_00, d_60]
  have f2b : find_closest_centroid [[(0 : ℝ)], [6]] [2] = 0 := by
    norm_num [find_closest_centroid, fccGo, d_02, d_62]
  have f2c : find_closest_centroid [[(0 : ℝ)], [6]] [10] = 1 := by
    norm_num [find_closest_centroid, fccGo, d_010, d_610]
  have he1 : e_step ⟨[[(0 : ℝ)], [2], [10]], 2, 3, 1 / 100, [[0], [2]], [[], []]⟩ =
      ⟨[[(0 : ℝ)], [2], [10]], 2, 3, 1 / 100, [[0], [2]], [[[0]], [[2], [10]]]⟩ := by
    simp [e_step, assignPoint, f1a, f1b, f1c]
  have hm1 : m_step ⟨[[(0 : ℝ)], [2], [10]], 2, 3, 1 / 100, [[0], [2]], [[[0]], [[2], [10]]]⟩ =
      ⟨[[(0 : ℝ)], [2], [10]], 2, 3, 1 / 100, [[0], [6]], [[[0]], [[2], [10]]]⟩ := by
    simp [m_step, vecMean, vecSum]
    norm_num
  have herr1 : listMean (difList [[(0 : ℝ)], [6]] [[0], [2]]) = 2 := by
    have h62 : |(6 : ℝ) - 2| = 4 := by
      rw [show (6 : ℝ) - 2 = 4 by norm_num]
      exact abs_of_nonneg (by norm_num)
    simp [difList, listMean, h62]
    norm_num
  have hs1 : kmeansStep ⟨⟨[[(0 : ℝ)], [2], [10]], 2, 3, 1 / 100, [[0], [2]], [[], []]⟩, ⊤, 1, []⟩ =
      ⟨⟨[[(0 : ℝ)], [2], [10]], 2, 3, 1 / 100, [[0], [6]], [[[0]], [[2], [10]]]⟩,
        ((2 : ℝ) : EReal), 2,
        [⟨[[(0 : ℝ)], [2], [10]], 2, 3, 1 / 100, [[0], [6]], [[[0]], [[2], [10]]]⟩]⟩ := by
    simp only [kmeansStep, he1, hm1, herr1, List.nil_append]
  have he2 : e_step ⟨[[(0 : ℝ)], [2], [10]], 2, 3, 1 / 100, [[0], [6]], [[[0]], [[2], [10]]]⟩ =
      ⟨[[(0 : ℝ)], [2], [10]], 2, 3, 1 / 100, [[0], [6]],
        [[[0], [0], [2]], [[2], [10], [10]]]⟩ := by
    simp [e_step, assignPoint, f2a, f2b, f2c]
  have hm2 : m_step ⟨[[(0 : ℝ)], [2], [10]], 2, 3, 1 / 100, [[0], [6]],
        [[[0], [0], [2]], [[2], [10], [10]]]⟩ =
      ⟨[[(0 : ℝ)], [2], [10]], 2, 3, 1 / 100, [[2 / 3], [22 / 3]],
        [[[0], [0], [2]], [[2], [10], [10]]]⟩ := by
    simp [m_step, vecMean, vecSum]
    norm_num
  have herr2 : listMean (difList [[(2 / 3 : ℝ)], [22 / 3]] [[0], [6]]) = 1 := by
    have h23 : |(2 / 3 : ℝ)| = 2 / 3 := abs_of_nonneg (by norm_num)
    have h43 : |(22 / 3 : ℝ) - 6| = 4 / 3 := by
      rw [show (22 / 3 : ℝ) - 6 = 4 / 3 by norm_num]
      exact abs_of_nonneg (by norm_num)
    simp [difList, listMean, h23, h43]
    norm_num
  have hs2 : kmeansStep ⟨⟨[[(0 : ℝ)], [2], [10]], 2, 3, 1 / 100, [[0], [6]], [[[0]], [[2], [10]]]⟩,
        ((2 : ℝ) : EReal), 2,
        [⟨[[(0 : ℝ)], [2], [10]], 2, 3, 1 / 100, [[0], [6]], [[[0]], [[2], [10]]]⟩]⟩ =
      ⟨⟨[[(0 : ℝ)], [2], [10]], 2, 3, 1 / 100, [[2 / 3], [22 / 3]],
          [[[0], [0], [2]], [[2], [10], [10]]]⟩,
        ((1 : ℝ) : EReal), 3,
        [⟨[[(0 : ℝ)], [2], [10]], 2, 3, 1 / 100, [[0], [6]], [[[0]], [[2], [10]]]⟩,
          ⟨[[(0 : ℝ)], [2], [10]], 2, 3, 1 / 100, [[2 / 3], [22 / 3]],
            [[[0], [0], [2]], [[2], [10], [10]]]⟩]⟩ := by
    simp only [kmeansStep, he2, hm2, herr2, List.cons_append, List.nil_append]
  have hg : gen_random_centroid stK2 [0, 1] =
      ⟨[[(0 : ℝ)], [2], [10]], 2, 3, 1 / 100, [[0], [2]], [[], []]⟩ := by
    simp [gen_random_centroid, stK2, List.range_succ]
  have hstart : kmeansExecute stK2 [0, 1] =
      kmeansLoop (1 / 100) 3
        ⟨⟨[[(0 : ℝ)], [2], [10]], 2, 3, 1 / 100, [[0], [2]], [[], []]⟩, ⊤, 1, []⟩ := by
    rw [kmeansExecute, hg]
    norm_num [stK2]
  rw [hstart, kmeansLoop_eq, if_pos ⟨by norm_num, by norm_num⟩, hs1,
    kmeansLoop_eq, if_pos ⟨by norm_num, by norm_num⟩, hs2,
    kmeansLoop_eq, if_neg (by intro hc; exact absurd hc.2 (by norm_num))]
  rfl

lemma pd_ok {N D K : ℕ} (st : gmm.GState N D K) (i : Fin N) (k : Fin K)
    (h : (st.cov k).det ≠ 0) :
    gmm.probability_density st i k = Except.ok (gmm.densVal st i k) := by
  unfold gmm.probability_density gmm.np_linalg_inv gmm.densVal
  rw [if_neg h]

/-- C1: the density prefactor of `gmm.probability_density` is
`1 / (2π)^(-K/2) = (2π)^(K/2)` with `K = n_clusters`, so at the point
`x = μ = 0`, `Σ = I₁` (`D = 1`, `K = 3`) the code returns `(2π)^(3/2)` while
the multivariate normal PDF of the claim is `(2π)^(-1/2)`; the two differ. -/
theorem c1_density_not_normal_pdf :
    gmm.probability_density stC1 0 0 = Except.ok ((2 * Real.pi) ^ ((3 : ℝ) / 2)) ∧
    normalPdf 1 (fun _ => 0) (fun _ => 0) 1 = (2 * Real.pi) ^ (-(1 : ℝ) / 2) ∧
    (2 * Real.pi) ^ ((3 : ℝ) / 2) ≠ (2 * Real.pi) ^ (-(1 : ℝ) / 2) := by
  have hpi : (0 : ℝ) ≤ 2 * Real.pi := by positivity
  have h2pi : (1 : ℝ) < 2 * Real.pi := by nlinarith [Real.pi_gt_three]
  refine ⟨?_, ?_, ?_⟩
  · rw [pd_ok stC1 0 0 (by simp [stC1])]
    congr 1
    unfold gmm.densVal
    simp [stC1, Matrix.dotProduct, Matrix.vecMul, Fin.sum_univ_one]
    rw [neg_div, Real.rpow_neg hpi, inv_inv]
  · unfold normalPdf
    simp [Matrix.dotProduct, Matrix.vecMul, Fin.sum_univ_one]
  · have : (2 * Real.pi) ^ (-(1 : ℝ) / 2) < (2 * Real.pi) ^ ((3 : ℝ) / 2) := by
      rw [Real.rpow_lt_rpow_left_iff h2pi]
      norm_num
    exact ne_of_gt this

/-- C6: `gmm.calculate_ric` performs no check on the denominator
`Σ_j pi_j * density(i, j)`: on `stC6` (all mixture weights zero, invertible
covariances) the denominator is exactly 0 and the update still returns a
normal `ok` result instead of a `DegenerateMixture` failure. -/
theorem c6_no_denominator_check :
    (∑ j, stC6.pi j * gmm.densVal stC6 0 j) = 0 ∧
    (∃ st', gmm.calculate_ric stC6 0 = Except.ok st') := by
  constructor
  · simp [stC6]
  · have hdet : ∀ k' : Fin 3, (stC6.cov k').det ≠ 0 := by
      intro k'
      simp [stC6]
    refine ⟨{ stC6 with
      ric := Matrix.of fun i k' =>
        if k' = 0 then stC6.pi 0 * gmm.densVal stC6 i 0 / (∑ j, stC6.pi j * gmm.densVal stC6 i j)
        else stC6.ric i k' }, ?_⟩
    unfold gmm.calculate_ric
    rw [if_neg (by norm_num), dif_pos hdet]

/-- C7: on a singular covariance the inversion failure inside
`gmm.probability_density` is caught by the bare `except:`; the failure that
escapes is the `LinAlgError` raised by the handler's own
`print(np.linalg.inv(...))` (the `raisedInExceptHandler` flag), not a
propagated typed `SingularMatrix` failure. -/
theorem c7_singular_cov_caught_in_handler {N D K : ℕ} (st : gmm.GState N D K)
    (i : Fin N) (k : Fin K) (h : (st.cov k).det = 0) :
    gmm.probability_density st i k = Except.error (PyErr.LinAlgError true) := by
  unfold gmm.probability_density gmm.np_linalg_inv
  rw [if_pos h]

theorem c7_witness :
    (stC7.cov 0).det = 0 ∧
    gmm.probability_density stC7 0 0 = Except.error (PyErr.LinAlgError true) :=
  ⟨by simp [stC7], c7_singular_cov_caught_in_handler stC7 0 0 (by simp [stC7])⟩

/-- C8: the responsibility initializer of `gmm.__init__` assigns the fixed
3-vector `[x, y, 1-(x+y)]` to every row of the `N × K` matrix; for `K = 1`
(one point, one component) this is a numpy shape mismatch (`ValueError`), not
a length-`K` partition of unity. -/
theorem c8_init_ric_fails_for_k_ne_three :
    gmm.init_ric 1 1 (fun _ => (1 / 2, 1 / 4)) = Except.error PyErr.ValueError := by
  unfold gmm.init_ric
  norm_num

/-- C9: `gmm.predict` evaluates every density at `self.input_data[i]`, never at
`X[i]`, so its result depends on `X` only through `X.shape[0]`: two point sets
of equal length get identical labels. -/
theorem c9_predict_ignores_argument {N D K : ℕ} (st : gmm.GState N D K)
    (X Y : List (List ℝ)) (h : X.length = Y.length) :
    gmm.predict st X = gmm.predict st Y := by
  unfold gmm.predict
  rw [h]

theorem c9_witness :
    ([[(5 : ℝ)]] : List (List ℝ)).length = ([[(7 : ℝ)]] : List (List ℝ)).length ∧
    gmm.predict stC1 [[(5 : ℝ)]] = gmm.predict stC1 [[(7 : ℝ)]] :=
  ⟨rfl, c9_predict_ignores_argument stC1 _ _ rfl⟩

lemma gmmLoop_eq {N D K : ℕ} (t : ℝ) (m : ℕ) (r : gmm.GRun N D K) :
    gmm.gmmLoop t m r =
      if (t : EReal) < r.delta ∧ r.iterations < m then
        (match gmm.m_step (gmm.e_step r.st) with
         | .error e => .error e
         | .ok st2 =>
           match gmm.get_likelihood st2 with
           | .error e => .error e
           | .ok lld =>
               gmm.gmmLoop t m
                 { st := { st2 with likelihood := lld }
                   delta := ((lld - st2.likelihood : ℝ) : EReal)
                   iterations := r.iterations + 1
                   trace := r.trace ++ [{ st2 with likelihood := lld }] })
      else .ok r := by
  rw [gmm.gmmLoop]
  exact dite_eq_ite

lemma c5h_e_step : gmm.e_step stC5 = stC5e := by
  simp only [gmm.e_step]
  refine gmm.GState.ext rfl rfl ?_ ?_ ?_ rfl rfl rfl
  · ext k j
    simp only [gmm.calculate_mu, Matrix.of_apply, stC5, stC5e, Fin.sum_univ_two]
    fin_cases k <;> fin_cases j <;>
      norm_num [Matrix.cons_val_zero, Matrix.cons_val_one, Matrix.head_cons,
        Matrix.cons_val_fin_one, Matrix.zero_apply]
  · ext k i j
    simp only [gmm.calculate_sigma, gmm.calculate_mu, Matrix.of_apply, stC5, stC5e,
      Fin.sum_univ_two]
    fin_cases k <;> fin_cases i <;> fin_cases j <;>
      norm_num [Matrix.cons_val_zero, Matrix.cons_val_one, Matrix.head_cons,
        Matrix.cons_val_fin_one, Matrix.zero_apply]
  · ext k
    simp only [gmm.calculate_pi, stC5, stC5e, Fin.sum_univ_two]
    fin_cases k <;>
      norm_num [Matrix.cons_val_zero, Matrix.cons_val_one, Matrix.head_cons,
        Matrix.cons_val_fin_one]

lemma c5h_det : ∀ k' : Fin 3, (stC5e.cov k').det ≠ 0 := by
  intro k'
  simp [stC5e, Matrix.det_fin_one_of]

lemma c5h_inv : (!![(10000 : ℝ)])⁻¹ = !![(10000 : ℝ)⁻¹] := by
  apply Matrix.inv_eq_right_inv
  ext i j
  fin_cases i <;> fin_cases j <;>
    norm_num [Matrix.mul_apply, Fin.sum_univ_one, Matrix.one_apply,
      Matrix.cons_val_zero, Matrix.cons_val_fin_one]

lemma c5h_cv_pos : 0 < cValC5 := by
  unfold cValC5
  positivity

lemma c5h_dens : ∀ (i : Fin 2) (k : Fin 3), gmm.densVal stC5e i k = cValC5 := by
  intro i k
  have hcov : stC5e.cov k = !![(10000 : ℝ)] := rfl
  have h10000 : (10000 : ℝ) ^ (-(1 : ℝ) / 2) = (100 : ℝ)⁻¹ := by
    rw [show (10000 : ℝ) = (100 : ℝ) ^ ((2 : ℕ) : ℝ) by rw [Real.rpow_natCast]; norm_num,
      ← Real.rpow_mul (by norm_num : (0 : ℝ) ≤ 100),
      show ((2 : ℕ) : ℝ) * (-(1 : ℝ) / 2) = -1 by norm_num,
      Real.rpow_neg_one]
  have hpref : (1 : ℝ) / (2 * Real.pi) ^ (-(3 : ℝ) / 2) = (2 * Real.pi) ^ ((3 : ℝ) / 2) := by
    rw [show (-(3 : ℝ) / 2) = -((3 : ℝ) / 2) by norm_num, Real.rpow_neg (by positivity),
      one_div, inv_inv]
  unfold gmm.densVal cValC5
  rw [hcov, c5h_inv, Matrix.det_fin_one_of]
  simp only [Nat.cast_ofNat, Matrix.vecMul, Matrix.dotProduct, Fin.sum_univ_one, stC5e,
    Matrix.zero_apply, Matrix.of_apply, Matrix.cons_val_zero, Matrix.cons_val_fin_one,
    Matrix.head_cons, Matrix.head_fin_const]
  rw [show |(10000 : ℝ)| = 10000 from abs_of_nonneg (by norm_num), h10000, hpref]
  fin_cases i <;> norm_num [Matrix.cons_val_zero, Matrix.cons_val_one, Matrix.head_cons,
    Matrix.cons_val_fin_one]

lemma c5h_sum : ∀ i : Fin 2, (∑ k, stC5e.pi k * gmm.densVal stC5e i k) = cValC5 := by
  intro i
  rw [Fin.sum_univ_three, c5h_dens i 0, c5h_dens i 1, c5h_dens i 2]
  have hp0 : stC5e.pi 0 = 1 / 2 := rfl
  have hp1 : stC5e.pi 1 = 1 / 4 := rfl
  have hp2 : stC5e.pi 2 = 1 / 4 := rfl
  rw [hp0, hp1, hp2]
  ring

lemma c5h_ric_eq_pi : ∀ (i : Fin 2) (k : Fin 3), stC5e.ric i k = stC5e.pi k := by
  intro i k
  fin_cases i <;> rfl

lemma c5h_cr : ∀ k : Fin 3, gmm.calculate_ric stC5e k = Except.ok stC5e := by
  intro k
  unfold gmm.calculate_ric
  rw [if_neg (by norm_num), dif_pos c5h_det]
  congr 1
  refine gmm.GState.ext rfl ?_ rfl rfl rfl rfl rfl rfl
  ext i k'
  simp only [Matrix.of_apply]
  by_cases hkk : k' = k
  · rw [if_pos hkk, hkk, c5h_dens i k, c5h_sum i, mul_div_assoc,
      div_self (ne_of_gt c5h_cv_pos), mul_one, c5h_ric_eq_pi i k]
  · rw [if_neg hkk]

lemma c5h_m_step : gmm.m_step stC5e = Except.ok stC5e := by
  unfold gmm.m_step
  rw [show List.finRange 3 = [0, 1, 2] from rfl]
  rw [List.foldlM_cons, c5h_cr 0]
  show List.foldlM (fun s k => gmm.calculate_ric s k) stC5e [1, 2] = Except.ok stC5e
  rw [List.foldlM_cons, c5h_cr 1]
  show List.foldlM (fun s k => gmm.calculate_ric s k) stC5e [2] = Except.ok stC5e
  rw [List.foldlM_cons, c5h_cr 2]
  show List.foldlM (fun s k => gmm.calculate_ric s k) stC5e [] = Except.ok stC5e
  rfl

lemma c5h_lld :
    gmm.get_likelihood stC5e = Except.ok (Real.log cValC5 + Real.log cValC5) := by
  unfold gmm.get_likelihood
  rw [if_neg (by norm_num), dif_pos c5h_det]
  congr 1
  rw [Fin.sum_univ_two, c5h_sum 0, c5h_sum 1]

lemma c5h_L_le : Real.log cValC5 + Real.log cValC5 ≤ -1 := by
  have hpos : (0 : ℝ) < (2 * Real.pi) ^ ((3 : ℝ) / 2) * (100 : ℝ)⁻¹ := by positivity
  have hlt : (2 * Real.pi) ^ ((3 : ℝ) / 2) * (100 : ℝ)⁻¹ < 1 := by
    have hb : (2 * Real.pi) ≤ 8 := by nlinarith [Real.pi_lt_d2]
    have h1 : (2 * Real.pi) ^ ((3 : ℝ) / 2) ≤ (8 : ℝ) ^ ((3 : ℝ) / 2) :=
      Real.rpow_le_rpow (by positivity) hb (by norm_num)
    have h2 : (8 : ℝ) ^ ((3 : ℝ) / 2) ≤ (8 : ℝ) ^ ((2 : ℕ) : ℝ) :=
      Real.rpow_le_rpow_of_exponent_le (by norm_num) (by norm_num)
    have h3 : (8 : ℝ) ^ ((2 : ℕ) : ℝ) = 64 := by rw [Real.rpow_natCast]; norm_num
    nlinarith
  have hlog : Real.log ((2 * Real.pi) ^ ((3 : ℝ) / 2) * (100 : ℝ)⁻¹) < 0 :=
    Real.log_neg hpos hlt
  have hsplit : Real.log cValC5 =
      Real.log ((2 * Real.pi) ^ ((3 : ℝ) / 2) * (100 : ℝ)⁻¹) + (-(1 : ℝ) / 2) := by
    unfold cValC5
    rw [Real.log_mul (ne_of_gt hpos) (Real.exp_ne_zero _), Real.log_exp]
  linarith

/-- C5: `gmm.execute` measures its first `delta` against the constructor
sentinel `self.likelihood = 0` and compares the signed (not absolute)
difference with `threshold`.  On `stC5` the first log-likelihood is at most
-1, so `delta ≤ -1 ≤ threshold = 1/2` and the fit stops after exactly 1 of
100 iterations, even though `|delta| ≥ 1 > threshold`. -/
theorem c5_negative_likelihood_stops_first_iteration :
    ∃ out : gmm.GRun 2 1 3,
      gmm.execute stC5 = Except.ok out ∧
      out.iterations = 1 ∧ stC5.max_iteration = 100 ∧
      out.delta ≤ ((-1 : ℝ) : EReal) ∧ stC5.threshold = 1 / 2 := by
  have hL := c5h_L_le
  have hexec : gmm.execute stC5 =
      Except.ok
        { st := { stC5e with likelihood := Real.log cValC5 + Real.log cValC5 }
          delta := ((Real.log cValC5 + Real.log cValC5 - stC5e.likelihood : ℝ) : EReal)
          iterations := 0 + 1
          trace := [{ stC5e with likelihood := Real.log cValC5 + Real.log cValC5 }] } := by
    have hstart : gmm.execute stC5 =
        gmm.gmmLoop (1 / 2) 100
          { st := stC5, delta := (⊤ : EReal), iterations := 0, trace := [] } := rfl
    rw [hstart, gmmLoop_eq, if_pos ⟨EReal.coe_lt_top _, by norm_num⟩, c5h_e_step]
    simp only [c5h_m_step, c5h_lld, List.nil_append]
    have hneg : ¬(((1 / 2 : ℝ) : EReal) <
        ((Real.log cValC5 + Real.log cValC5 - stC5e.likelihood : ℝ) : EReal) ∧
        (0 + 1 : ℕ) < 100) := by
      intro hc
      have h1 : (1 / 2 : ℝ) < Real.log cValC5 + Real.log cValC5 - stC5e.likelihood := by
        exact_mod_cast hc.1
      have hlik : stC5e.likelihood = 0 := rfl
      rw [hlik] at h1
      linarith
    rw [gmmLoop_eq, if_neg hneg]
  refine ⟨_, hexec, rfl, rfl, ?_, rfl⟩
  show ((Real.log cValC5 + Real.log cValC5 - stC5e.likelihood : ℝ) : EReal) ≤ ((-1 : ℝ) : EReal)
  have hlik : stC5e.likelihood = 0 := rfl
  have hle : Real.log cValC5 + Real.log cValC5 - stC5e.likelihood ≤ -1 := by
    rw [hlik]
    linarith
  exact_mod_cast hle
